import Mathlib

/-
Verification of the TableFactory layout and rendering layer.

The development shallowly embeds the data model of TableFactory/layout.py
(StyleAttributes, Cell, TableRow, ColumnSpec, RowSpec), the shared cell
casting of TableFactory/base.py, and the cell/row emission loops of
TableFactory/htmltable.py, TableFactory/pdftable.py and
TableFactory/spreadsheettable.py.

Python records are modelled by the inductive PyVal: a record may be
mapping-like (dict), attribute-bearing (obj), or both (objdict), mirroring
the two lookup protocols that RowSpec.__call__ exercises. Python
exceptions are modelled with Except: the KeyError/TypeError raised by a
failed mapping lookup is caught inside resolveStep (exactly as the
try/except in RowSpec.__call__ catches it), while a failed attribute
lookup escapes as an AttributeError value.
-/

set_option autoImplicit false

namespace TF

mutual

/-- Python values as far as the table layer inspects them: the None
singleton, strings, integers, mapping-like records, attribute-bearing
records, and records supporting both protocols. -/
inductive PyVal where
  | none
  | str (s : String)
  | int (n : Int)
  | dict (items : PyFields)
  | obj (attrs : PyFields)
  | objdict (items : PyFields) (attrs : PyFields)

/-- A finite association of names to values, used for both the mapping
entries and the attribute namespace of a record. -/
inductive PyFields where
  | nil
  | cons (name : String) (value : PyVal) (rest : PyFields)

end

end TF

/-- First-match lookup in a field list (Python dict keys and attribute
names are unique, so first match is the only match). -/
def TF.PyFields.lookup : TF.PyFields → String → Option TF.PyVal
  | .nil, _ => Option.none
  | .cons n v rest, key => if n = key then some v else rest.lookup key

namespace TF

/-- Mapping-style lookup, record[name]. Returns Option.none when the
record is not mapping-like (Python TypeError) or the key is missing
(Python KeyError); RowSpec.__call__ catches exactly those two exceptions. -/
def getItem : PyVal → String → Option PyVal
  | .dict items, key => items.lookup key
  | .objdict items _, key => items.lookup key
  | _, _ => Option.none

/-- Attribute-style lookup, record.name. Returns Option.none when the
record has no such attribute (Python AttributeError). -/
def getAttr : PyVal → String → Option PyVal
  | .obj attrs, key => attrs.lookup key
  | .objdict _ attrs, key => attrs.lookup key
  | _, _ => Option.none

/-- Errors that can escape from row construction. The source code only
ever lets the AttributeError of a failed getattr propagate.
ResolutionError is the dedicated resolution-failure class named by the
specification error taxonomy; the repository defines no such class, and
the constructor exists here only so that theorems can state that it is
never what escapes. -/
inductive PyErr where
  | attributeError (name : String)
  | resolutionError
  deriving DecidableEq

/-- One step of RowSpec.__call__ path resolution: try value[attribute],
and on KeyError/TypeError fall back to getattr(value, attribute). -/
def resolveStep (value : PyVal) (attrName : String) : Except PyErr PyVal :=
  match getItem value attrName with
  | some result => Except.ok result
  | Option.none =>
    match getAttr value attrName with
    | some result => Except.ok result
    | Option.none => Except.error (PyErr.attributeError attrName)

/-- The inner loop of RowSpec.__call__: thread the record through each
path segment in turn. -/
def resolvePath (value : PyVal) : List String → Except PyErr PyVal
  | [] => Except.ok value
  | attrName :: rest =>
    match resolveStep value attrName with
    | Except.ok next => resolvePath next rest
    | Except.error e => Except.error e

end TF

namespace TF

/-- Values stored in a StyleAttributes property bag: Python None,
booleans, integers, floats (modelled as rationals) and strings. -/
inductive StyleVal where
  | none
  | bool (b : Bool)
  | int (n : Int)
  | float (q : Rat)
  | str (s : String)
  deriving DecidableEq

/-- Python truthiness of a style value, as used by the checks
"if cell.style.bold:", "if cell.style.money:" and "if cell.style.raw:". -/
def StyleVal.truthy : StyleVal → Bool
  | .none => false
  | .bool b => b
  | .int n => n != 0
  | .float q => q != 0
  | .str s => s != ""

/-- Multiplication by reportlab inch (72 units), applied by
StyleAttributes.__getattr__ to a present width. Python booleans are
integers, so a Bool width also multiplies; a non-numeric width would
raise TypeError in Python and is returned unchanged here (no claim and
no renderer evaluates one). -/
def StyleVal.mulInch : StyleVal → StyleVal
  | .int n => .float (n * 72)
  | .float q => .float (q * 72)
  | .bool b => .float (if b then 72 else 0)
  | v => v

/-- The integer a span option denotes where the renderers compare it
with 1 or format it with %d. The spec types span as an integer and the
default is the integer 1; Python booleans are integers. A float or
string span would misbehave inside the Python renderers and is not
modelled beyond a neutral 1. -/
def StyleVal.spanInt : StyleVal → Int
  | .int n => n
  | .bool b => if b then 1 else 0
  | _ => 1

/-- StyleAttributes from layout.py: a thin wrapper around the keyword
property dict. -/
structure StyleAttributes where
  properties : List (String × StyleVal)
  deriving DecidableEq

/-- StyleAttributes.__getattr__: fetch the property with a None default,
scale a present width by inch, default an absent span to 1, and
otherwise return the stored value verbatim. Totality of this function
embeds the fact that no option name raises. -/
def StyleAttributes.getattr (sa : StyleAttributes) (key : String) : StyleVal :=
  let value := (sa.properties.lookup key).getD StyleVal.none
  if key = "width" ∧ value ≠ StyleVal.none then value.mulInch
  else if key = "span" ∧ value = StyleVal.none then StyleVal.int 1
  else value

/-- Cell from layout.py: a displayed value plus a StyleAttributes. The
Python constructor defaults a missing style to StyleAttributes(), i.e.
to an empty property bag. -/
structure Cell where
  value : PyVal
  style : StyleAttributes

/-- TableRow from layout.py: an ordered list of cells. -/
structure TableRow where
  cells : List Cell

/-- The attribute argument of ColumnSpec.__init__: either a single name
or a tuple of names. -/
inductive PathArg where
  | single (name : String)
  | tuple (names : List String)
  deriving DecidableEq

/-- The title a ColumnSpec carries: the Python attribute argument can be
stored there unchanged, so a title is either a string or a tuple. -/
inductive TitleVal where
  | str (s : String)
  | tup (names : List String)
  deriving DecidableEq

/-- ColumnSpec from layout.py. -/
structure ColumnSpec where
  attributes : List String
  title : TitleVal
  style : StyleAttributes

/-- The title value the attribute argument itself denotes, used when no
truthy title is supplied. -/
def PathArg.asTitle : PathArg → TitleVal
  | .single n => .str n
  | .tuple ns => .tup ns

/-- ColumnSpec.__init__: a tuple attribute is stored as the path, a
single name becomes a one-element path; the title defaults to the
attribute argument itself whenever the given title is falsy (absent or
the empty string); the keyword properties become the style bag. -/
def ColumnSpec.make (attrArg : PathArg) (title : Option String)
    (properties : List (String × StyleVal)) : ColumnSpec :=
  { attributes :=
      match attrArg with
      | .single n => [n]
      | .tuple ns => ns
    title :=
      match title with
      | some t => if t ≠ "" then TitleVal.str t else attrArg.asTitle
      | Option.none => attrArg.asTitle
    style := StyleAttributes.mk properties }

/-- RowSpec from layout.py: an ordered list of ColumnSpecs. -/
structure RowSpec where
  columnspecs : List ColumnSpec

/-- The loop body of RowSpec.__call__: resolve each ColumnSpec path
against the record in order and collect one Cell per ColumnSpec, with
the first resolution failure aborting the whole call. -/
def buildCells (rowobject : PyVal) : List ColumnSpec → Except PyErr (List Cell)
  | [] => Except.ok []
  | column :: rest =>
    match resolvePath rowobject column.attributes with
    | Except.error e => Except.error e
    | Except.ok value =>
      match buildCells rowobject rest with
      | Except.error e => Except.error e
      | Except.ok cells => Except.ok (Cell.mk value column.style :: cells)

/-- RowSpec.__call__: build the cells and wrap them into a TableRow. -/
def RowSpec.call (spec : RowSpec) (rowobject : PyVal) : Except PyErr TableRow :=
  (buildCells rowobject spec.columnspecs).map TableRow.mk

end TF

namespace TF

/-- Python str.replace on character lists, for a single-character
pattern: every pattern the source passes to .replace (ampersand,
less-than, greater-than, carriage return) is a single character, for
which replacing every occurrence left to right is exactly this map. -/
def pyReplaceChar (pat : Char) (rep : List Char) : List Char → List Char
  | [] => []
  | c :: rest => (if c = pat then rep else [c]) ++ pyReplaceChar pat rep rest

/-- Python str.replace lifted to String, single-character pattern. -/
def pyReplace (s : String) (pat : Char) (rep : String) : String :=
  String.mk (pyReplaceChar pat rep.data s.data)

/-- cgi.escape from the Python 2 standard library with its default
arguments: replace ampersand, then less-than, then greater-than. -/
def cgiEscape (s : String) : String :=
  pyReplace (pyReplace (pyReplace s '&' "&amp;") '<' "&lt;") '>' "&gt;"

/-- Python unicode() string conversion of a cell value. Scalars convert
exactly; the Python repr of a container or object value embeds object
identity (memory addresses) and is not modelled beyond a marker, and no
claim renders a container-valued cell. -/
def pyUnicode : PyVal → String
  | .none => "None"
  | .str s => s
  | .int n => toString n
  | .dict _ => "(unmodelled container repr)"
  | .obj _ => "(unmodelled object repr)"
  | .objdict _ _ => "(unmodelled object repr)"

/-- Python "value is None". -/
def PyVal.isNone : PyVal → Bool
  | .none => true
  | _ => false

/-- TableBase._cast from base.py: a raw cell returns its value as-is
(whatever its type); a None value becomes the empty string; any other
value is converted by the type-keyed cast function (the castfunctions
dict is empty in every table class, so the default unicode() always
applies) and then HTML-escaped by cgi.escape. -/
def TableBase.cast (cell : Cell) : PyVal :=
  if (cell.style.getattr "raw").truthy then cell.value
  else if cell.value.isNone then PyVal.str ""
  else PyVal.str (cgiEscape (pyUnicode cell.value))

/-- The CSS class names of HTMLTable.cssdefs. -/
def cssdefs.bold : String := "cell_bold"

/-- The money entry of HTMLTable.cssdefs. -/
def cssdefs.money : String := "cell_money"

/-- The childrow entry of HTMLTable.cssdefs. -/
def cssdefs.childrow : String := "expand-child"

/-- The zebra tuple of HTMLTable.cssdefs, indexed by rowsetindex % 2. -/
def cssdefs.zebra : Nat → String
  | 0 => "odd"
  | _ => "even"

/-- The class attribute text of a td, from the bold/money checks at the
top of HTMLTable._rendercell. -/
def cellCssString (style : StyleAttributes) : String :=
  let cssclasses :=
    (if (style.getattr "bold").truthy then [cssdefs.bold] else []) ++
    (if (style.getattr "money").truthy then [cssdefs.money] else [])
  if cssclasses ≠ [] then " class=\"" ++ String.intercalate " " cssclasses ++ "\"" else ""

/-- The colspan attribute text of a td, emitted by HTMLTable._rendercell
when the span option exceeds 1. -/
def cellColspanString (style : StyleAttributes) : String :=
  let colspan := (style.getattr "span").spanInt
  if colspan > 1 then " colspan=\"" ++ toString colspan ++ "\"" else ""

/-- HTMLTable._rendercell: cast the cell, replace carriage returns by
br tags, and wrap the text in a td carrying the style classes and the
colspan. The Python .replace call is a string method, so a raw cell
whose value is not a string makes the renderer raise (AttributeError);
that failure is the Option.none case. -/
def HTMLTable.rendercell (cell : Cell) : Option String :=
  match TableBase.cast cell with
  | PyVal.str s =>
    some ("<td" ++ cellCssString cell.style ++ cellColspanString cell.style ++ ">"
          ++ pyReplace s '\r' "<br />" ++ "</td>")
  | _ => Option.none

/-- A rowset as accepted by render: either a bare TableRow or a
collection of TableRows. -/
inductive Rowset where
  | row (r : TableRow)
  | rows (rs : List TableRow)

/-- The isinstance normalization at the top of the render loop: a bare
TableRow becomes a one-element list. -/
def Rowset.asList : Rowset → List TableRow
  | .row r => [r]
  | .rows rs => rs

/-- The tr class list built for one data row by HTMLTable.render:
always the zebra stripe of the rowset index parity, plus the childrow
class for every subrow after the first. -/
def trClasses (rowsetindex subrowindex : Nat) : List String :=
  [cssdefs.zebra (rowsetindex % 2)] ++
  (if subrowindex ≠ 0 then [cssdefs.childrow] else [])

/-- The lines HTMLTable.render appends for one data row: the tr opener
with its classes, one indented td per cell, and the closing tr. -/
def renderRowLines (rowsetindex subrowindex : Nat) (subrow : TableRow) :
    Option (List String) :=
  (subrow.cells.mapM (fun cell =>
      (HTMLTable.rendercell cell).map (fun s => "      " ++ s))).map
    (fun cellLines =>
      ("    <tr class=\"" ++ String.intercalate " " (trClasses rowsetindex subrowindex) ++ "\">")
        :: (cellLines ++ ["    </tr>"]))

/-- The lines HTMLTable.render appends for one rowset: its rows in
order, each row numbered by enumerate. -/
def renderRowsetLines (rowsetindex : Nat) (rowset : Rowset) :
    Option (List String) :=
  (rowset.asList.enum.mapM (fun p => renderRowLines rowsetindex p.1 p.2)).map List.flatten

/-- The body loop of HTMLTable.render (the lines between tbody tags):
rowsets in order, each numbered by enumerate. -/
def renderBodyLines (rowsets : List Rowset) : Option (List String) :=
  (rowsets.enum.mapM (fun p => renderRowsetLines p.1 p.2)).map List.flatten

/-- The text PDFTable._rendercell hands to the reportlab Paragraph: the
cast value, wrapped in bold tags by the percent-format when the bold
option is truthy (the format stringifies any value), and required to be
a string otherwise (Paragraph fails on a non-string, the Option.none
case). -/
def PDFTable.paragraphText (cell : Cell) : Option String :=
  let value := TableBase.cast cell
  if (cell.style.getattr "bold").truthy then
    some ("<b>" ++ pyUnicode value ++ "</b>")
  else
    match value with
    | PyVal.str s => some s
    | _ => Option.none

/-- The write calls SpreadsheetTable.render issues for one subrow: the
cell value is passed to row.write verbatim (no casting), at a column
number that starts at 0 and advances by the span of each cell. -/
def spreadsheetRowWrites (colnum : Int) : List Cell → List (Int × PyVal)
  | [] => []
  | cell :: rest =>
    (colnum, cell.value) ::
      spreadsheetRowWrites (colnum + (cell.style.getattr "span").spanInt) rest

end TF

namespace TF

/-- A resolution step errs exactly when both lookups fail, and the error
is the AttributeError of the failing segment. -/
theorem resolveStep_error_iff (v : PyVal) (a : String) (e : PyErr) :
    resolveStep v a = Except.error e ↔
      getItem v a = Option.none ∧ getAttr v a = Option.none
        ∧ e = PyErr.attributeError a := by
  unfold resolveStep
  cases h1 : getItem v a with
  | some w => simp
  | none =>
    cases h2 : getAttr v a with
    | some w => simp
    | none => simp [eq_comm]

/-- Any error escaping path resolution is an AttributeError. -/
theorem resolvePath_error_form (path : List String) :
    ∀ (v : PyVal) (e : PyErr), resolvePath v path = Except.error e →
      ∃ a, e = PyErr.attributeError a := by
  induction path with
  | nil =>
    intro v e h
    simp [resolvePath] at h
  | cons a rest ih =>
    intro v e h
    cases hs : resolveStep v a with
    | error e0 =>
      have h0 := (resolveStep_error_iff v a e0).mp hs
      simp [resolvePath, hs] at h
      exact ⟨a, by rw [← h]; exact h0.2.2⟩
    | ok v0 =>
      simp [resolvePath, hs] at h
      exact ih v0 e h

/-- Path resolution errs exactly when the path decomposes around a
segment at which, after resolving the earlier segments, both lookups
fail. -/
theorem resolvePath_error_iff (path : List String) :
    ∀ v : PyVal,
      (∃ e, resolvePath v path = Except.error e) ↔
        ∃ pre name suf w, path = pre ++ name :: suf
          ∧ resolvePath v pre = Except.ok w
          ∧ getItem w name = Option.none ∧ getAttr w name = Option.none := by
  induction path with
  | nil =>
    intro v
    constructor
    · rintro ⟨e, he⟩
      simp [resolvePath] at he
    · rintro ⟨pre, name, suf, w, hp, -, -, -⟩
      exact absurd hp (by simp)
  | cons a rest ih =>
    intro v
    cases hs : resolveStep v a with
    | error e0 =>
      have h0 := (resolveStep_error_iff v a e0).mp hs
      constructor
      · intro _
        exact ⟨[], a, rest, v, rfl, rfl, h0.1, h0.2.1⟩
      · intro _
        exact ⟨e0, by simp [resolvePath, hs]⟩
    | ok v0 =>
      have hred : resolvePath v (a :: rest) = resolvePath v0 rest := by
        simp [resolvePath, hs]
      constructor
      · rintro ⟨e, he⟩
        rw [hred] at he
        obtain ⟨pre, name, suf, w, hp, hok, h1, h2⟩ := (ih v0).mp ⟨e, he⟩
        refine ⟨a :: pre, name, suf, w, by simp [hp], ?_, h1, h2⟩
        simpa [resolvePath, hs] using hok
      · rintro ⟨pre, name, suf, w, hp, hok, h1, h2⟩
        rw [hred]
        cases pre with
        | nil =>
          simp at hp
          obtain ⟨hname, hsuf⟩ := hp
          simp [resolvePath] at hok
          subst hname
          subst hok
          exact absurd hs (by simp [resolveStep, h1, h2])
        | cons b pre2 =>
          simp at hp
          obtain ⟨hb, hrest⟩ := hp
          subst hb
          have hok2 : resolvePath v0 pre2 = Except.ok w := by
            simpa [resolvePath, hs] using hok
          exact (ih v0).mpr ⟨pre2, name, suf, w, hrest, hok2, h1, h2⟩

/-- Cell building errs exactly when some ColumnSpec path resolution
errs. -/
theorem buildCells_error_iff (R : PyVal) (specs : List ColumnSpec) :
    (∃ e, buildCells R specs = Except.error e) ↔
      ∃ col ∈ specs, ∃ e, resolvePath R col.attributes = Except.error e := by
  induction specs with
  | nil => simp [buildCells]
  | cons col rest ih =>
    cases hc : resolvePath R col.attributes with
    | error e0 =>
      constructor
      · intro _
        exact ⟨col, by simp, e0, hc⟩
      · intro _
        exact ⟨e0, by simp [buildCells, hc]⟩
    | ok v =>
      cases hb : buildCells R rest with
      | error e1 =>
        constructor
        · intro _
          obtain ⟨col2, hm, e, he⟩ := ih.mp ⟨e1, hb⟩
          exact ⟨col2, by simp [hm], e, he⟩
        · intro _
          exact ⟨e1, by simp [buildCells, hc, hb]⟩
      | ok cells =>
        constructor
        · rintro ⟨e, he⟩
          simp [buildCells, hc, hb] at he
        · rintro ⟨col2, hm, e, he⟩
          rcases List.mem_cons.mp hm with h | h
          · subst h
            rw [hc] at he
            cases he
          · obtain ⟨e2, he2⟩ := ih.mpr ⟨col2, h, e, he⟩
            rw [hb] at he2
            cases he2

/-- Any error escaping cell building is an AttributeError. -/
theorem buildCells_error_form (R : PyVal) (specs : List ColumnSpec) :
    ∀ e, buildCells R specs = Except.error e → ∃ a, e = PyErr.attributeError a := by
  induction specs with
  | nil =>
    intro e h
    simp [buildCells] at h
  | cons col rest ih =>
    intro e h
    cases hc : resolvePath R col.attributes with
    | error e0 =>
      simp [buildCells, hc] at h
      exact h ▸ resolvePath_error_form col.attributes R e0 hc
    | ok v =>
      cases hb : buildCells R rest with
      | error e1 =>
        simp [buildCells, hc, hb] at h
        exact h ▸ ih e1 hb
      | ok cells =>
        simp [buildCells, hc, hb] at h

/-- RowSpec.call errs exactly as buildCells does, the TableRow wrapping
being error-transparent. -/
theorem call_error_iff_build (S : RowSpec) (R : PyVal) (e : PyErr) :
    RowSpec.call S R = Except.error e ↔
      buildCells R S.columnspecs = Except.error e := by
  unfold RowSpec.call
  cases hb : buildCells R S.columnspecs with
  | error e2 => simp [Except.map]
  | ok cells => simp [Except.map]

end TF

namespace TF

/-- Unfolding an Option-valued mapM: the result has one entry per input,
and the entry at each index is the image of the input at that index. -/
theorem mapM_option_get {α β : Type} (f : α → Option β) :
    ∀ (l : List α) (res : List β), l.mapM f = some res →
      res.length = l.length ∧
      ∀ (i : Nat) (hi : i < l.length) (hj : i < res.length),
        f (l.get ⟨i, hi⟩) = some (res.get ⟨i, hj⟩) := by
  intro l
  induction l with
  | nil =>
    intro res h
    simp only [List.mapM_nil, pure, Option.some.injEq] at h
    subst h
    exact ⟨rfl, fun i hi _ => absurd hi (by simp)⟩
  | cons a l ih =>
    intro res h
    rw [List.mapM_cons] at h
    cases hfa : f a with
    | none => rw [hfa] at h; simp at h
    | some b =>
      rw [hfa] at h
      cases hml : l.mapM f with
      | none => rw [hml] at h; simp at h
      | some bs =>
        rw [hml] at h
        simp at h
        subst h
        obtain ⟨hlen, hget⟩ := ih bs hml
        refine ⟨by simp [hlen], ?_⟩
        intro i hi hj
        cases i with
        | zero => exact hfa
        | succ k => exact hget k (by simpa using hi) (by simpa using hj)

/-- The first line emitted for a data row is the tr opener carrying
exactly the classes of trClasses. -/
theorem renderRowLines_head (i j : Nat) (subrow : TableRow) (lines : List String)
    (h : renderRowLines i j subrow = some lines) :
    lines.head? =
      some ("    <tr class=\"" ++ String.intercalate " " (trClasses i j) ++ "\">") := by
  unfold renderRowLines at h
  cases hm : subrow.cells.mapM
      (fun cell => (HTMLTable.rendercell cell).map (fun s => "      " ++ s)) with
  | none => rw [hm] at h; cases h
  | some cls =>
    rw [hm] at h
    cases h
    rfl

/-- The body lines of a render decompose into one segment per rowset,
in order, each produced by renderRowsetLines at its rowset index. -/
theorem renderBodyLines_struct (rowsets : List Rowset) (L : List String)
    (h : renderBodyLines rowsets = some L) :
    ∃ segs : List (List String), L = segs.flatten
      ∧ segs.length = rowsets.length
      ∧ ∀ (i : Nat) (hi : i < rowsets.length) (hj : i < segs.length),
          renderRowsetLines i (rowsets.get ⟨i, hi⟩) = some (segs.get ⟨i, hj⟩) := by
  unfold renderBodyLines at h
  cases hm : rowsets.enum.mapM (fun p => renderRowsetLines p.1 p.2) with
  | none => rw [hm] at h; cases h
  | some segs =>
    rw [hm] at h
    cases h
    obtain ⟨hlen, hget⟩ := mapM_option_get _ rowsets.enum segs hm
    rw [List.enum_length] at hlen
    refine ⟨segs, rfl, hlen, ?_⟩
    intro i hi hj
    have hi2 : i < rowsets.enum.length := by rw [List.enum_length]; exact hi
    have := hget i hi2 hj
    rwa [show rowsets.enum.get ⟨i, hi2⟩ = (i, rowsets.get ⟨i, hi⟩) from by
      simp [List.getElem_enum]] at this

/-- The lines of one rowset decompose into one segment per subrow, in
order, each produced by renderRowLines at its subrow index. -/
theorem renderRowsetLines_struct (i : Nat) (rowset : Rowset) (seg : List String)
    (h : renderRowsetLines i rowset = some seg) :
    ∃ rowsLines : List (List String), seg = rowsLines.flatten
      ∧ rowsLines.length = rowset.asList.length
      ∧ ∀ (j : Nat) (hj : j < rowset.asList.length) (hk : j < rowsLines.length),
          renderRowLines i j (rowset.asList.get ⟨j, hj⟩) = some (rowsLines.get ⟨j, hk⟩) := by
  unfold renderRowsetLines at h
  cases hm : rowset.asList.enum.mapM (fun p => renderRowLines i p.1 p.2) with
  | none => rw [hm] at h; cases h
  | some rowsLines =>
    rw [hm] at h
    cases h
    obtain ⟨hlen, hget⟩ := mapM_option_get _ rowset.asList.enum rowsLines hm
    rw [List.enum_length] at hlen
    refine ⟨rowsLines, rfl, hlen, ?_⟩
    intro j hj hk
    have hj2 : j < rowset.asList.enum.length := by rw [List.enum_length]; exact hj
    have := hget j hj2 hk
    rwa [show rowset.asList.enum.get ⟨j, hj2⟩ = (j, rowset.asList.get ⟨j, hj⟩) from by
      simp [List.getElem_enum]] at this

/-- Replacing every occurrence of a character leaves no occurrence when
the replacement itself avoids the character. -/
theorem pyReplaceChar_not_mem (pat : Char) (rep : List Char) (hrep : pat ∉ rep) :
    ∀ l : List Char, pat ∉ pyReplaceChar pat rep l := by
  intro l
  induction l with
  | nil => simp [pyReplaceChar]
  | cons c rest ih =>
    by_cases hc : c = pat
    · simp [pyReplaceChar, hc, hrep, ih]
    · simp [pyReplaceChar, hc, ih]
      exact fun h => hc (h.symm)

end TF

namespace TF

/-- Successful cell building yields one cell per ColumnSpec in order,
with the resolved value and the shared style of the ColumnSpec. -/
theorem buildCells_ok_spec (R : PyVal) (specs : List ColumnSpec)
    (h : ∀ col ∈ specs, ∃ w, resolvePath R col.attributes = Except.ok w) :
    ∃ cells, buildCells R specs = Except.ok cells
      ∧ cells.length = specs.length
      ∧ ∀ (i : Nat) (hi : i < specs.length) (hj : i < cells.length),
          (cells.get ⟨i, hj⟩).style = (specs.get ⟨i, hi⟩).style
          ∧ resolvePath R (specs.get ⟨i, hi⟩).attributes
              = Except.ok ((cells.get ⟨i, hj⟩).value) := by
  induction specs with
  | nil => exact ⟨[], rfl, rfl, fun i hi _ => absurd hi (by simp)⟩
  | cons col rest ih =>
    obtain ⟨w, hw⟩ := h col (by simp)
    obtain ⟨cells, hb, hlen, hspec⟩ := ih (fun c hc => h c (by simp [hc]))
    refine ⟨Cell.mk w col.style :: cells, ?_, by simp [hlen], ?_⟩
    · simp [buildCells, hw, hb]
    · intro i hi hj
      cases i with
      | zero => exact ⟨rfl, hw⟩
      | succ k => exact hspec k (by simpa using hi) (by simpa using hj)

/-- C1: for every record R and every RowSpec S built from N ColumnSpecs
whose paths all resolve against R, S(R) returns a TableRow of exactly N
cells, one per ColumnSpec in ColumnSpec order; the i-th cell value is
the resolution of the i-th ColumnSpec path against R and the i-th cell
style is the i-th ColumnSpec StyleAttributes. -/
theorem tf_C1 (S : RowSpec) (R : PyVal)
    (h : ∀ col ∈ S.columnspecs, ∃ w, resolvePath R col.attributes = Except.ok w) :
    ∃ row : TableRow, RowSpec.call S R = Except.ok row
      ∧ row.cells.length = S.columnspecs.length
      ∧ ∀ (i : Nat) (hi : i < S.columnspecs.length) (hj : i < row.cells.length),
          (row.cells.get ⟨i, hj⟩).style = (S.columnspecs.get ⟨i, hi⟩).style
          ∧ resolvePath R ((S.columnspecs.get ⟨i, hi⟩).attributes)
              = Except.ok ((row.cells.get ⟨i, hj⟩).value) := by
  obtain ⟨cells, hb, hlen, hspec⟩ := buildCells_ok_spec R S.columnspecs h
  exact ⟨TableRow.mk cells, by simp [RowSpec.call, hb, Except.map], hlen, hspec⟩

/-- Witness for C1 at a one-column RowSpec applied to a one-key dict. -/
theorem tf_C1_witness :
    ∃ row : TableRow,
      RowSpec.call (RowSpec.mk [ColumnSpec.make (PathArg.single "a") Option.none []])
          (PyVal.dict (PyFields.cons "a" (PyVal.int 1) PyFields.nil)) = Except.ok row
      ∧ row.cells.length
          = (RowSpec.mk [ColumnSpec.make (PathArg.single "a") Option.none []]).columnspecs.length
      ∧ ∀ (i : Nat)
          (hi : i < (RowSpec.mk [ColumnSpec.make (PathArg.single "a") Option.none []]).columnspecs.length)
          (hj : i < row.cells.length),
          (row.cells.get ⟨i, hj⟩).style
              = ((RowSpec.mk [ColumnSpec.make (PathArg.single "a") Option.none []]).columnspecs.get ⟨i, hi⟩).style
          ∧ resolvePath (PyVal.dict (PyFields.cons "a" (PyVal.int 1) PyFields.nil))
                (((RowSpec.mk [ColumnSpec.make (PathArg.single "a") Option.none []]).columnspecs.get ⟨i, hi⟩).attributes)
              = Except.ok ((row.cells.get ⟨i, hj⟩).value) :=
  tf_C1 (RowSpec.mk [ColumnSpec.make (PathArg.single "a") Option.none []])
    (PyVal.dict (PyFields.cons "a" (PyVal.int 1) PyFields.nil))
    (by
      intro col hcol
      simp only [RowSpec.mk] at hcol
      rw [List.mem_singleton] at hcol
      subst hcol
      exact ⟨PyVal.int 1, rfl⟩)

/-- C2: mapping lookup is tried before attribute lookup at every path
segment and wins on conflict; attribute lookup is used exactly when
mapping lookup fails; and the two-segment path x, y against the nested
dict mapping x to a dict mapping y to 5 resolves to 5. -/
theorem tf_C2 :
    (∀ (record : PyVal) (name : String) (a b : PyVal),
        getItem record name = some a → getAttr record name = some b → a ≠ b →
          resolveStep record name = Except.ok a)
    ∧ (∀ (record : PyVal) (name : String) (w : PyVal),
        getItem record name = Option.none → getAttr record name = some w →
          resolveStep record name = Except.ok w)
    ∧ resolvePath
        (PyVal.dict (PyFields.cons "x"
          (PyVal.dict (PyFields.cons "y" (PyVal.int 5) PyFields.nil)) PyFields.nil))
        ["x", "y"] = Except.ok (PyVal.int 5) := by
  refine ⟨?_, ?_, rfl⟩
  · intro record name a b h1 _ _
    simp [resolveStep, h1]
  · intro record name w h1 h2
    simp [resolveStep, h1, h2]

/-- Witness for C2: a record carrying the key n as both a mapping entry
(value 1) and an attribute (value 2) resolves n to the mapping value,
and a purely attribute-bearing record falls back to the attribute. -/
theorem tf_C2_witness :
    resolveStep (PyVal.objdict (PyFields.cons "n" (PyVal.int 1) PyFields.nil)
        (PyFields.cons "n" (PyVal.int 2) PyFields.nil)) "n" = Except.ok (PyVal.int 1)
    ∧ resolveStep (PyVal.obj (PyFields.cons "n" (PyVal.int 2) PyFields.nil)) "n"
        = Except.ok (PyVal.int 2) :=
  ⟨tf_C2.1 _ "n" (PyVal.int 1) (PyVal.int 2) rfl rfl (by intro hab; simp at hab),
   tf_C2.2.1 _ "n" (PyVal.int 2) rfl rfl⟩

/-- C3 counterexample: resolving the path x against the empty dict fails
at row construction, but what escapes is the AttributeError of the
failed getattr, not a ResolutionError: the repository defines no such
class. -/
theorem tf_C3_counterexample :
    RowSpec.call (RowSpec.mk [ColumnSpec.make (PathArg.single "x") Option.none []])
        (PyVal.dict PyFields.nil) = Except.error (PyErr.attributeError "x")
    ∧ PyErr.attributeError "x" ≠ PyErr.resolutionError :=
  ⟨rfl, by decide⟩

/-- C3 amended: S(R) fails exactly when some ColumnSpec path has a
segment at which, after resolving the earlier segments, neither mapping
nor attribute lookup succeeds; the failure is the propagated
AttributeError of the failing getattr (never a dedicated
ResolutionError, which the code does not define), and it is the result
of calling S(R) itself, i.e. it surfaces at row-construction time. -/
theorem tf_C3 (S : RowSpec) (R : PyVal) :
    ((∃ e, RowSpec.call S R = Except.error e) ↔
      ∃ col ∈ S.columnspecs, ∃ pre name suf w,
        col.attributes = pre ++ name :: suf
        ∧ resolvePath R pre = Except.ok w
        ∧ getItem w name = Option.none ∧ getAttr w name = Option.none)
    ∧ ∀ e, RowSpec.call S R = Except.error e → ∃ a, e = PyErr.attributeError a := by
  constructor
  · exact Iff.trans (exists_congr fun e => call_error_iff_build S R e)
      (Iff.trans (buildCells_error_iff R S.columnspecs)
        (exists_congr fun col => and_congr_right fun _ =>
          resolvePath_error_iff col.attributes R))
  · intro e he
    exact buildCells_error_form R S.columnspecs e ((call_error_iff_build S R e).mp he)

/-- Witness for C3 amended: the error escaping from the concrete failing
call of the counterexample input is an AttributeError. -/
theorem tf_C3_witness :
    ∃ a, PyErr.attributeError "x" = PyErr.attributeError a :=
  (tf_C3 (RowSpec.mk [ColumnSpec.make (PathArg.single "x") Option.none []])
      (PyVal.dict PyFields.nil)).2 (PyErr.attributeError "x") rfl

end TF

namespace TF

/-- C4: StyleAttributes attribute access is total (no option name
raises; the Lean function is total by construction) and resolves as
documented: with no options span is 1 and width is None; with span=3
span is 3; bold, money and raw are falsy when absent; and every option
name other than width and span yields the stored value verbatim, or
None when absent. -/
theorem tf_C4 :
    ((StyleAttributes.mk []).getattr "span" = StyleVal.int 1)
    ∧ ((StyleAttributes.mk []).getattr "width" = StyleVal.none)
    ∧ ((StyleAttributes.mk [("span", StyleVal.int 3)]).getattr "span" = StyleVal.int 3)
    ∧ (∀ (props : List (String × StyleVal)), ∀ key ∈ ["bold", "money", "raw"],
        props.lookup key = Option.none →
          ((StyleAttributes.mk props).getattr key).truthy = false)
    ∧ (∀ (props : List (String × StyleVal)) (key : String),
        key ≠ "width" → key ≠ "span" →
          (StyleAttributes.mk props).getattr key
            = (props.lookup key).getD StyleVal.none) := by
  refine ⟨rfl, rfl, rfl, ?_, ?_⟩
  · intro props key hk hlookup
    have hget : (StyleAttributes.mk props).getattr key = StyleVal.none := by
      simp only [List.mem_cons, List.not_mem_nil, or_false] at hk
      rcases hk with rfl | rfl | rfl
      · simp [StyleAttributes.getattr, hlookup]
      · simp [StyleAttributes.getattr, hlookup]
      · simp [StyleAttributes.getattr, hlookup]
    rw [hget]
    rfl
  · intro props key h1 h2
    have hw : ¬(key = "width" ∧ ((props.lookup key).getD StyleVal.none) ≠ StyleVal.none) :=
      fun hc => h1 hc.1
    have hs : ¬(key = "span" ∧ ((props.lookup key).getD StyleVal.none) = StyleVal.none) :=
      fun hc => h2 hc.1
    simp only [StyleAttributes.getattr, if_neg hw, if_neg hs]

/-- Witness for C4 at concrete option bags: bold is falsy when absent,
and an unrecognized option name is returned verbatim. -/
theorem tf_C4_witness :
    ((StyleAttributes.mk []).getattr "bold").truthy = false
    ∧ (StyleAttributes.mk [("custom", StyleVal.str "z")]).getattr "custom"
        = (([("custom", StyleVal.str "z")] : List (String × StyleVal)).lookup "custom").getD StyleVal.none :=
  ⟨tf_C4.2.2.2.1 [] "bold" (by simp) rfl,
   tf_C4.2.2.2.2 [("custom", StyleVal.str "z")] "custom" (by decide) (by decide)⟩

/-- C5: in markup output a raw cell has its value embedded without
escaping while a non-raw cell has its display text HTML-escaped first:
casting a raw string cell is the identity, casting a non-raw string
cell applies cgi.escape, and for the value consisting of x wrapped in
bold tags the raw td contains it unchanged while the non-raw td
contains its entity-escaped form. -/
theorem tf_C5 :
    (∀ s : String,
        TableBase.cast (Cell.mk (PyVal.str s)
            (StyleAttributes.mk [("raw", StyleVal.bool true)])) = PyVal.str s)
    ∧ (∀ s : String,
        TableBase.cast (Cell.mk (PyVal.str s) (StyleAttributes.mk []))
          = PyVal.str (cgiEscape s))
    ∧ HTMLTable.rendercell (Cell.mk (PyVal.str "<b>x</b>")
          (StyleAttributes.mk [("raw", StyleVal.bool true)]))
        = some "<td><b>x</b></td>"
    ∧ HTMLTable.rendercell (Cell.mk (PyVal.str "<b>x</b>") (StyleAttributes.mk []))
        = some "<td>&lt;b&gt;x&lt;/b&gt;</td>" :=
  ⟨fun _ => rfl, fun _ => rfl, rfl, rfl⟩

/-- C6 counterexample: a cell whose value is None but whose raw option
is set is not rendered as the empty string: the cast returns the None
value itself, and markup rendering of that cell fails (the Python
.replace call raises AttributeError on None), so the claim does not
hold regardless of style options. -/
theorem tf_C6_counterexample :
    TableBase.cast (Cell.mk PyVal.none (StyleAttributes.mk [("raw", StyleVal.bool true)]))
        = PyVal.none
    ∧ HTMLTable.rendercell (Cell.mk PyVal.none (StyleAttributes.mk [("raw", StyleVal.bool true)]))
        = Option.none :=
  ⟨rfl, rfl⟩

/-- C6 amended: for every cell whose value is None and whose raw style
option is falsy, the cast display text (the text the markup and
paginated renderers embed) is the empty string; concretely the markup
renderer emits an empty td and the paginated renderer hands the empty
string to its paragraph, while the spreadsheet renderer passes the None
value through to the workbook library verbatim (a blank cell) without
casting. -/
theorem tf_C6 (props : List (String × StyleVal))
    (h : ((StyleAttributes.mk props).getattr "raw").truthy = false) :
    TableBase.cast (Cell.mk PyVal.none (StyleAttributes.mk props)) = PyVal.str ""
    ∧ HTMLTable.rendercell (Cell.mk PyVal.none (StyleAttributes.mk [])) = some "<td></td>"
    ∧ PDFTable.paragraphText (Cell.mk PyVal.none (StyleAttributes.mk [])) = some ""
    ∧ spreadsheetRowWrites 0 [Cell.mk PyVal.none (StyleAttributes.mk props)]
        = [(0, PyVal.none)] := by
  refine ⟨?_, rfl, rfl, rfl⟩
  simp [TableBase.cast, h, PyVal.isNone]

/-- Witness for C6 amended at the empty option bag. -/
theorem tf_C6_witness :
    TableBase.cast (Cell.mk PyVal.none (StyleAttributes.mk [])) = PyVal.str ""
    ∧ HTMLTable.rendercell (Cell.mk PyVal.none (StyleAttributes.mk [])) = some "<td></td>"
    ∧ PDFTable.paragraphText (Cell.mk PyVal.none (StyleAttributes.mk [])) = some ""
    ∧ spreadsheetRowWrites 0 [Cell.mk PyVal.none (StyleAttributes.mk [])]
        = [(0, PyVal.none)] :=
  tf_C6 [] rfl

end TF

namespace TF

/-- C7: markup zebra striping is assigned at rowset granularity. The
stripe class of every row of the rowset at index i is the zebra class
of the parity of i (independent of the subrow index, so all rows of one
rowset share it), the zebra classes of consecutive rowset indices
differ, the tr opener emitted for each row carries exactly those
classes, the body output decomposes into the per-rowset and per-row
segments these facts speak about, and on two rowsets of two rows each
both rows of the first rowset get the odd class while both rows of the
second get the even class. -/
theorem tf_C7 :
    (∀ i j : Nat, (trClasses i j).head? = some (cssdefs.zebra (i % 2)))
    ∧ (∀ i : Nat, cssdefs.zebra ((i + 1) % 2) ≠ cssdefs.zebra (i % 2))
    ∧ (∀ (i j : Nat) (subrow : TableRow) (lines : List String),
        renderRowLines i j subrow = some lines →
          lines.head? =
            some ("    <tr class=\"" ++ String.intercalate " " (trClasses i j) ++ "\">"))
    ∧ (∀ (rowsets : List Rowset) (L : List String),
        renderBodyLines rowsets = some L →
          ∃ segs : List (List String), L = segs.flatten
            ∧ segs.length = rowsets.length
            ∧ ∀ (i : Nat) (hi : i < rowsets.length) (hj : i < segs.length),
                renderRowsetLines i (rowsets.get ⟨i, hi⟩) = some (segs.get ⟨i, hj⟩))
    ∧ renderBodyLines
        [Rowset.rows [TableRow.mk [Cell.mk (PyVal.str "a") (StyleAttributes.mk [])],
                      TableRow.mk [Cell.mk (PyVal.str "a") (StyleAttributes.mk [])]],
         Rowset.rows [TableRow.mk [Cell.mk (PyVal.str "a") (StyleAttributes.mk [])],
                      TableRow.mk [Cell.mk (PyVal.str "a") (StyleAttributes.mk [])]]]
        = some ["    <tr class=\"odd\">", "      <td>a</td>", "    </tr>",
                "    <tr class=\"odd expand-child\">", "      <td>a</td>", "    </tr>",
                "    <tr class=\"even\">", "      <td>a</td>", "    </tr>",
                "    <tr class=\"even expand-child\">", "      <td>a</td>", "    </tr>"] := by
  refine ⟨fun i j => rfl, ?_, renderRowLines_head, renderBodyLines_struct, rfl⟩
  intro i
  rcases Nat.mod_two_eq_zero_or_one i with h | h
  · have h2 : (i + 1) % 2 = 1 := by omega
    rw [h, h2]
    decide
  · have h2 : (i + 1) % 2 = 0 := by omega
    rw [h, h2]
    decide

/-- Witness for C7, applying the row-head part at rowset index 0, subrow
index 0 of a concrete one-cell row. -/
theorem tf_C7_witness :
    (["    <tr class=\"odd\">", "      <td>a</td>", "    </tr>"] : List String).head?
      = some ("    <tr class=\"" ++ String.intercalate " " (trClasses 0 0) ++ "\">") :=
  tf_C7.2.2.1 0 0 (TableRow.mk [Cell.mk (PyVal.str "a") (StyleAttributes.mk [])])
    ["    <tr class=\"odd\">", "      <td>a</td>", "    </tr>"] rfl

/-- C8 counterexample: a ColumnSpec built from the tuple path x, y with
no explicit title has the whole tuple as its title, not the first
segment x. -/
theorem tf_C8_counterexample :
    (ColumnSpec.make (PathArg.tuple ["x", "y"]) Option.none []).title ≠ TitleVal.str "x"
    ∧ (ColumnSpec.make (PathArg.tuple ["x", "y"]) Option.none []).title
        = TitleVal.tup ["x", "y"] := by
  constructor
  · intro h
    cases h
  · rfl

/-- C8 amended: a ColumnSpec constructed without an explicit title (or
with the empty string, which Python truthiness treats as absent) has
the attribute argument itself as its title: the whole tuple for a tuple
path, hence the only segment exactly in the single-name case; a
non-empty explicit title is used verbatim. -/
theorem tf_C8 (attrArg : PathArg) (props : List (String × StyleVal)) :
    (ColumnSpec.make attrArg Option.none props).title = attrArg.asTitle
    ∧ (∀ t : String, t ≠ "" →
        (ColumnSpec.make attrArg (some t) props).title = TitleVal.str t)
    ∧ (ColumnSpec.make attrArg (some "") props).title = attrArg.asTitle
    ∧ (∀ n : String,
        (ColumnSpec.make (PathArg.single n) Option.none props).title = TitleVal.str n) := by
  refine ⟨rfl, ?_, rfl, fun n => rfl⟩
  intro t ht
  simp [ColumnSpec.make, ht]

/-- Witness for C8 amended: a truthy explicit title wins. -/
theorem tf_C8_witness :
    (ColumnSpec.make (PathArg.single "p") (some "T") []).title = TitleVal.str "T" :=
  (tf_C8 (PathArg.single "p") []).2.1 "T" (by decide)

/-- C9: within every markup rowset, each row after the first carries the
expand-child class in addition to its stripe class and the first row
does not: the class list is the stripe alone at subrow index 0 and the
stripe followed by expand-child at any later subrow index, the
expand-child class appears exactly when the subrow index is nonzero,
the emitted tr opener carries exactly that class list, each rowset
segment decomposes into one renderRowLines result per subrow index,
and a concrete two-row rowset shows the first tr without and the second
tr with expand-child. -/
theorem tf_C9 :
    (∀ i j : Nat, j ≠ 0 →
        trClasses i j = [cssdefs.zebra (i % 2), cssdefs.childrow])
    ∧ (∀ i : Nat, trClasses i 0 = [cssdefs.zebra (i % 2)])
    ∧ (∀ i j : Nat, cssdefs.childrow ∈ trClasses i j ↔ j ≠ 0)
    ∧ (∀ (i j : Nat) (subrow : TableRow) (lines : List String),
        renderRowLines i j subrow = some lines →
          lines.head? =
            some ("    <tr class=\"" ++ String.intercalate " " (trClasses i j) ++ "\">"))
    ∧ (∀ (i : Nat) (rowset : Rowset) (seg : List String),
        renderRowsetLines i rowset = some seg →
          ∃ rowsLines : List (List String), seg = rowsLines.flatten
            ∧ rowsLines.length = rowset.asList.length
            ∧ ∀ (j : Nat) (hj : j < rowset.asList.length) (hk : j < rowsLines.length),
                renderRowLines i j (rowset.asList.get ⟨j, hj⟩) = some (rowsLines.get ⟨j, hk⟩))
    ∧ renderRowsetLines 1
        (Rowset.rows [TableRow.mk [Cell.mk (PyVal.str "a") (StyleAttributes.mk [])],
                      TableRow.mk [Cell.mk (PyVal.str "a") (StyleAttributes.mk [])]])
        = some ["    <tr class=\"even\">", "      <td>a</td>", "    </tr>",
                "    <tr class=\"even expand-child\">", "      <td>a</td>", "    </tr>"] := by
  refine ⟨?_, fun i => rfl, ?_, renderRowLines_head, renderRowsetLines_struct, rfl⟩
  · intro i j hj
    simp [trClasses, hj]
  · intro i j
    constructor
    · intro hmem
      intro hj0
      subst hj0
      rcases Nat.mod_two_eq_zero_or_one i with h | h <;>
        simp [trClasses, h, cssdefs.zebra, cssdefs.childrow] at hmem
    · intro hj
      simp [trClasses, hj]

/-- Witness for C9, applying the nonzero-subrow class list part and the
row-head part at subrow index 1. -/
theorem tf_C9_witness :
    trClasses 0 1 = [cssdefs.zebra (0 % 2), cssdefs.childrow]
    ∧ (["    <tr class=\"odd expand-child\">", "      <td>a</td>", "    </tr>"] : List String).head?
        = some ("    <tr class=\"" ++ String.intercalate " " (trClasses 0 1) ++ "\">") :=
  ⟨tf_C9.1 0 1 (by decide),
   tf_C9.2.2.2.1 0 1 (TableRow.mk [Cell.mk (PyVal.str "a") (StyleAttributes.mk [])])
     ["    <tr class=\"odd expand-child\">", "      <td>a</td>", "    </tr>"] rfl⟩

/-- C10: every carriage return in a cell cast display text is replaced
by a br tag before the text is embedded in its td, for raw and non-raw
cells alike: whenever the cast yields a string, the td content is that
string with every carriage return replaced (so no carriage return
remains), and concretely a non-raw and a raw cell each containing a
carriage return render with a br tag in its place. -/
theorem tf_C10 (cell : Cell) (s : String) (h : TableBase.cast cell = PyVal.str s) :
    HTMLTable.rendercell cell
      = some ("<td" ++ cellCssString cell.style ++ cellColspanString cell.style ++ ">"
              ++ pyReplace s '\r' "<br />" ++ "</td>")
    ∧ ('\r' ∉ (pyReplace s '\r' "<br />").data)
    ∧ HTMLTable.rendercell (Cell.mk (PyVal.str "a\rb") (StyleAttributes.mk []))
        = some "<td>a<br />b</td>"
    ∧ HTMLTable.rendercell (Cell.mk (PyVal.str "c\rd")
          (StyleAttributes.mk [("raw", StyleVal.bool true)]))
        = some "<td>c<br />d</td>" := by
  refine ⟨?_, ?_, rfl, rfl⟩
  · unfold HTMLTable.rendercell
    rw [h]
  · exact pyReplaceChar_not_mem '\r' "<br />".data (by decide) s.data

/-- Witness for C10 at a concrete non-raw cell containing a carriage
return. -/
theorem tf_C10_witness :
    HTMLTable.rendercell (Cell.mk (PyVal.str "m\rn") (StyleAttributes.mk []))
      = some ("<td" ++ cellCssString (Cell.mk (PyVal.str "m\rn") (StyleAttributes.mk [])).style
              ++ cellColspanString (Cell.mk (PyVal.str "m\rn") (StyleAttributes.mk [])).style ++ ">"
              ++ pyReplace "m\rn" '\r' "<br />" ++ "</td>")
    ∧ ('\r' ∉ (pyReplace "m\rn" '\r' "<br />").data)
    ∧ HTMLTable.rendercell (Cell.mk (PyVal.str "a\rb") (StyleAttributes.mk []))
        = some "<td>a<br />b</td>"
    ∧ HTMLTable.rendercell (Cell.mk (PyVal.str "c\rd")
          (StyleAttributes.mk [("raw", StyleVal.bool true)]))
        = some "<td>c<br />d</td>" :=
  tf_C10 (Cell.mk (PyVal.str "m\rn") (StyleAttributes.mk [])) "m\rn" rfl

end TF
